import Mathlib

/-!
Shallow embedding of the demo-customer-app service (src/src/main.rs).

The program is an HTTP service over three independent in-memory stores
(projects, tasks, customers), each a growable vector behind a reader/writer
lock.  We embed the pure content of each handler:

* `Uuid` is modelled as `Nat`.  `Uuid::new_v4()` draws a random 122-bit
  value; we model the generator as an injective fresh-id supply (a counter
  threaded through an `Env`), reflecting the collision-freedom the program
  relies on.
* `DateTime<Utc>` is modelled as `Nat` (`Utc::now()` reads the clock held
  in `Env`).
* `f64` carries no arithmetic in this program (the `budget` field is only
  moved and compared); we model an `f64` value by its 64-bit pattern.
* The `RwLock` admits one writer or many readers; a handler's body runs
  under the lock, so each handler is a function from the pre-state to a
  result and a post-state.  Read-only handlers (`list_*`, `get_*`) take
  shared access and never mutate, so they return the state unchanged.
-/

namespace DemoCustomerApp

/-- UUIDs, modelled as natural numbers produced by a fresh-id supply. -/
abbrev Uuid := Nat

/-- UTC timestamps, modelled as natural numbers. -/
abbrev Timestamp := Nat

/-- An f64 value, modelled by its 64-bit pattern (the program never computes
with budgets, it only stores and returns them). -/
abbrev F64 := Nat

/-- HTTP status codes. -/
abbrev StatusCode := Nat

/-- StatusCode::CREATED. -/
def CREATED : StatusCode := 201

/-- StatusCode::NOT_FOUND. -/
def NOT_FOUND : StatusCode := 404

/-- struct Project (main.rs lines 15-22). -/
structure Project where
  id : Uuid
  name : String
  status : String
  budget : F64
  created_at : Timestamp
deriving DecidableEq, Repr

/-- struct Task (main.rs lines 24-31). -/
structure Task where
  id : Uuid
  title : String
  completed : Bool
  priority : Int
  created_at : Timestamp
deriving DecidableEq, Repr

/-- struct Customer (main.rs lines 33-40). -/
structure Customer where
  id : Uuid
  name : String
  email : String
  active : Bool
  created_at : Timestamp
deriving DecidableEq, Repr

/-- struct CreateProjectRequest (main.rs lines 42-47). -/
structure CreateProjectRequest where
  name : String
  status : String
  budget : F64
deriving DecidableEq, Repr

/-- struct CreateTaskRequest (main.rs lines 49-54). -/
structure CreateTaskRequest where
  title : String
  completed : Bool
  priority : Int
deriving DecidableEq, Repr

/-- struct CreateCustomerRequest (main.rs lines 56-61). -/
structure CreateCustomerRequest where
  name : String
  email : String
  active : Bool
deriving DecidableEq, Repr

/-- struct AppState (main.rs lines 63-67): the three stores.  Each Rust store
is `Arc<RwLock<Vec<_>>>`; the vector contents are what we model. -/
structure AppState where
  projects : List Project
  tasks : List Task
  customers : List Customer
deriving DecidableEq, Repr

/-- AppState::new (main.rs lines 69-77): all three stores start empty. -/
def AppState.new : AppState :=
  { projects := [], tasks := [], customers := [] }

/-- The generator environment: the fresh-uuid supply and the wall clock. -/
structure Env where
  nextUuid : Uuid
  now : Timestamp
deriving DecidableEq, Repr

/-- Uuid::new_v4(): draw a fresh identifier from the supply. -/
def Env.new_v4 (e : Env) : Uuid × Env :=
  (e.nextUuid, { e with nextUuid := e.nextUuid + 1 })

/-- list_projects (main.rs lines 79-82): snapshot copy of the store. -/
def list_projects (st : AppState) : List Project :=
  st.projects

/-- create_project (main.rs lines 84-94): build the record with a fresh id
and the current time, push it at the end of the store, return 201 and the
record. -/
def create_project (payload : CreateProjectRequest) (env : Env) (st : AppState) :
    (StatusCode × Project) × Env × AppState :=
  let g := env.new_v4
  let item : Project :=
    { id := g.1
      name := payload.name
      status := payload.status
      budget := payload.budget
      created_at := env.now }
  ((CREATED, item), g.2, { st with projects := st.projects ++ [item] })

/-- get_project (main.rs lines 96-102): linear scan for the first record with
the given id; 404 when absent. -/
def get_project (id : Uuid) (st : AppState) : Except StatusCode Project :=
  match st.projects.find? (fun i => i.id == id) with
  | some item => Except.ok item
  | none => Except.error NOT_FOUND

/-- list_tasks (main.rs lines 104-107). -/
def list_tasks (st : AppState) : List Task :=
  st.tasks

/-- create_task (main.rs lines 109-119). -/
def create_task (payload : CreateTaskRequest) (env : Env) (st : AppState) :
    (StatusCode × Task) × Env × AppState :=
  let g := env.new_v4
  let item : Task :=
    { id := g.1
      title := payload.title
      completed := payload.completed
      priority := payload.priority
      created_at := env.now }
  ((CREATED, item), g.2, { st with tasks := st.tasks ++ [item] })

/-- get_task (main.rs lines 121-127). -/
def get_task (id : Uuid) (st : AppState) : Except StatusCode Task :=
  match st.tasks.find? (fun i => i.id == id) with
  | some item => Except.ok item
  | none => Except.error NOT_FOUND

/-- list_customers (main.rs lines 129-132). -/
def list_customers (st : AppState) : List Customer :=
  st.customers

/-- create_customer (main.rs lines 134-144). -/
def create_customer (payload : CreateCustomerRequest) (env : Env) (st : AppState) :
    (StatusCode × Customer) × Env × AppState :=
  let g := env.new_v4
  let item : Customer :=
    { id := g.1
      name := payload.name
      email := payload.email
      active := payload.active
      created_at := env.now }
  ((CREATED, item), g.2, { st with customers := st.customers ++ [item] })

/-- get_customer (main.rs lines 146-152). -/
def get_customer (id : Uuid) (st : AppState) : Except StatusCode Customer :=
  match st.customers.find? (fun i => i.id == id) with
  | some item => Except.ok item
  | none => Except.error NOT_FOUND

/-- One request against the service (the routed handlers of main.rs). -/
inductive Op where
  | createProject : CreateProjectRequest → Op
  | createTask : CreateTaskRequest → Op
  | createCustomer : CreateCustomerRequest → Op
  | listProjects : Op
  | listTasks : Op
  | listCustomers : Op
  | getProject : Uuid → Op
  | getTask : Uuid → Op
  | getCustomer : Uuid → Op
deriving DecidableEq, Repr

/-- The state transition of one handled request.  The `RwLock` serializes
writers, so each create is one atomic state change; the read-only handlers
(`list_*`, `get_*`) acquire shared access only and leave the state as is. -/
def step (op : Op) (s : Env × AppState) : Env × AppState :=
  match op with
  | .createProject p => ((create_project p s.1 s.2).2.1, (create_project p s.1 s.2).2.2)
  | .createTask p => ((create_task p s.1 s.2).2.1, (create_task p s.1 s.2).2.2)
  | .createCustomer p => ((create_customer p s.1 s.2).2.1, (create_customer p s.1 s.2).2.2)
  | .listProjects => s
  | .listTasks => s
  | .listCustomers => s
  | .getProject _ => s
  | .getTask _ => s
  | .getCustomer _ => s

/-- A run of the service: handle a sequence of requests in order. -/
def run (ops : List Op) (s : Env × AppState) : Env × AppState :=
  ops.foldl (fun s op => step op s) s

/-- N project creations in sequence, returning the created records in
creation order together with the final environment and state. -/
def create_projects (reqs : List CreateProjectRequest) (env : Env) (st : AppState) :
    List Project × Env × AppState :=
  match reqs with
  | [] => ([], env, st)
  | r :: rs =>
    let out := create_project r env st
    let rest := create_projects rs out.2.1 out.2.2
    (out.1.2 :: rest.1, rest.2)

/-- N task creations in sequence. -/
def create_tasks (reqs : List CreateTaskRequest) (env : Env) (st : AppState) :
    List Task × Env × AppState :=
  match reqs with
  | [] => ([], env, st)
  | r :: rs =>
    let out := create_task r env st
    let rest := create_tasks rs out.2.1 out.2.2
    (out.1.2 :: rest.1, rest.2)

/-- N customer creations in sequence. -/
def create_customers (reqs : List CreateCustomerRequest) (env : Env) (st : AppState) :
    List Customer × Env × AppState :=
  match reqs with
  | [] => ([], env, st)
  | r :: rs =>
    let out := create_customer r env st
    let rest := create_customers rs out.2.1 out.2.2
    (out.1.2 :: rest.1, rest.2)

/-- Freshness invariant of the uuid supply: every id already stored is below
the next id to be drawn.  It holds in every reachable state. -/
def uuidFresh (env : Env) (st : AppState) : Prop :=
  (∀ p ∈ st.projects, p.id < env.nextUuid) ∧
  (∀ t ∈ st.tasks, t.id < env.nextUuid) ∧
  (∀ c ∈ st.customers, c.id < env.nextUuid)

instance (env : Env) (st : AppState) : Decidable (uuidFresh env st) := by
  unfold uuidFresh; infer_instance

/-! Helper lemmas shared by several claims. -/

theorem find?_projects_fresh (env : Env) (st : AppState)
    (h : ∀ p ∈ st.projects, p.id < env.nextUuid) :
    st.projects.find? (fun i => i.id == env.nextUuid) = none := by
  rw [List.find?_eq_none]
  intro x hx
  simp only [beq_iff_eq]
  exact Nat.ne_of_lt (h x hx)

theorem find?_tasks_fresh (env : Env) (st : AppState)
    (h : ∀ t ∈ st.tasks, t.id < env.nextUuid) :
    st.tasks.find? (fun i => i.id == env.nextUuid) = none := by
  rw [List.find?_eq_none]
  intro x hx
  simp only [beq_iff_eq]
  exact Nat.ne_of_lt (h x hx)

theorem find?_customers_fresh (env : Env) (st : AppState)
    (h : ∀ c ∈ st.customers, c.id < env.nextUuid) :
    st.customers.find? (fun i => i.id == env.nextUuid) = none := by
  rw [List.find?_eq_none]
  intro x hx
  simp only [beq_iff_eq]
  exact Nat.ne_of_lt (h x hx)

theorem uuidFresh_new (env : Env) : uuidFresh env AppState.new := by
  refine ⟨?_, ?_, ?_⟩ <;> intro x hx <;> simp [AppState.new] at hx

theorem uuidFresh_step (op : Op) (s : Env × AppState) (h : uuidFresh s.1 s.2) :
    uuidFresh (step op s).1 (step op s).2 := by
  obtain ⟨h1, h2, h3⟩ := h
  cases op with
  | createProject p =>
    refine ⟨?_, ?_, ?_⟩ <;>
      simp only [step, create_project, Env.new_v4] <;>
      intro x hx
    · rcases List.mem_append.1 hx with hx | hx
      · exact Nat.lt_succ_of_lt (h1 x hx)
      · simp at hx; subst hx; exact Nat.lt_succ_self _
    · exact Nat.lt_succ_of_lt (h2 x hx)
    · exact Nat.lt_succ_of_lt (h3 x hx)
  | createTask p =>
    refine ⟨?_, ?_, ?_⟩ <;>
      simp only [step, create_task, Env.new_v4] <;>
      intro x hx
    · exact Nat.lt_succ_of_lt (h1 x hx)
    · rcases List.mem_append.1 hx with hx | hx
      · exact Nat.lt_succ_of_lt (h2 x hx)
      · simp at hx; subst hx; exact Nat.lt_succ_self _
    · exact Nat.lt_succ_of_lt (h3 x hx)
  | createCustomer p =>
    refine ⟨?_, ?_, ?_⟩ <;>
      simp only [step, create_customer, Env.new_v4] <;>
      intro x hx
    · exact Nat.lt_succ_of_lt (h1 x hx)
    · exact Nat.lt_succ_of_lt (h2 x hx)
    · rcases List.mem_append.1 hx with hx | hx
      · exact Nat.lt_succ_of_lt (h3 x hx)
      · simp at hx; subst hx; exact Nat.lt_succ_self _
  | listProjects => exact ⟨h1, h2, h3⟩
  | listTasks => exact ⟨h1, h2, h3⟩
  | listCustomers => exact ⟨h1, h2, h3⟩
  | getProject id => exact ⟨h1, h2, h3⟩
  | getTask id => exact ⟨h1, h2, h3⟩
  | getCustomer id => exact ⟨h1, h2, h3⟩

theorem uuidFresh_run (ops : List Op) (s : Env × AppState) (h : uuidFresh s.1 s.2) :
    uuidFresh (run ops s).1 (run ops s).2 := by
  induction ops generalizing s with
  | nil => exact h
  | cons op ops ih => exact ih (step op s) (uuidFresh_step op s h)

theorem create_projects_spec (reqs : List CreateProjectRequest) (env : Env) (st : AppState) :
    (create_projects reqs env st).2.2.projects
        = st.projects ++ (create_projects reqs env st).1 ∧
    (create_projects reqs env st).1.map Project.id
        = List.range' env.nextUuid reqs.length ∧
    (create_projects reqs env st).2.1.nextUuid = env.nextUuid + reqs.length ∧
    (create_projects reqs env st).2.2.tasks = st.tasks ∧
    (create_projects reqs env st).2.2.customers = st.customers := by
  induction reqs generalizing env st with
  | nil => simp [create_projects]
  | cons r rs ih =>
    obtain ⟨ihp, ihm, ihn, iht, ihc⟩ :=
      ih { env with nextUuid := env.nextUuid + 1 }
        { st with projects := st.projects ++ [⟨env.nextUuid, r.name, r.status, r.budget, env.now⟩] }
    refine ⟨?_, ?_, ?_, ?_, ?_⟩ <;>
      simp only [create_projects, create_project, Env.new_v4, List.length_cons,
        List.map_cons, List.range'_succ]
    · simpa [List.append_assoc] using ihp
    · simpa using ihm
    · rw [ihn]; exact Nat.add_right_comm env.nextUuid 1 rs.length
    · simpa using iht
    · simpa using ihc

theorem create_tasks_spec (reqs : List CreateTaskRequest) (env : Env) (st : AppState) :
    (create_tasks reqs env st).2.2.tasks
        = st.tasks ++ (create_tasks reqs env st).1 ∧
    (create_tasks reqs env st).1.map Task.id
        = List.range' env.nextUuid reqs.length ∧
    (create_tasks reqs env st).2.1.nextUuid = env.nextUuid + reqs.length ∧
    (create_tasks reqs env st).2.2.projects = st.projects ∧
    (create_tasks reqs env st).2.2.customers = st.customers := by
  induction reqs generalizing env st with
  | nil => simp [create_tasks]
  | cons r rs ih =>
    obtain ⟨ihp, ihm, ihn, iht, ihc⟩ :=
      ih { env with nextUuid := env.nextUuid + 1 }
        { st with tasks := st.tasks ++ [⟨env.nextUuid, r.title, r.completed, r.priority, env.now⟩] }
    refine ⟨?_, ?_, ?_, ?_, ?_⟩ <;>
      simp only [create_tasks, create_task, Env.new_v4, List.length_cons,
        List.map_cons, List.range'_succ]
    · simpa [List.append_assoc] using ihp
    · simpa using ihm
    · rw [ihn]; exact Nat.add_right_comm env.nextUuid 1 rs.length
    · simpa using iht
    · simpa using ihc

theorem create_customers_spec (reqs : List CreateCustomerRequest) (env : Env) (st : AppState) :
    (create_customers reqs env st).2.2.customers
        = st.customers ++ (create_customers reqs env st).1 ∧
    (create_customers reqs env st).1.map Customer.id
        = List.range' env.nextUuid reqs.length ∧
    (create_customers reqs env st).2.1.nextUuid = env.nextUuid + reqs.length ∧
    (create_customers reqs env st).2.2.projects = st.projects ∧
    (create_customers reqs env st).2.2.tasks = st.tasks := by
  induction reqs generalizing env st with
  | nil => simp [create_customers]
  | cons r rs ih =>
    obtain ⟨ihp, ihm, ihn, iht, ihc⟩ :=
      ih { env with nextUuid := env.nextUuid + 1 }
        { st with customers := st.customers ++ [⟨env.nextUuid, r.name, r.email, r.active, env.now⟩] }
    refine ⟨?_, ?_, ?_, ?_, ?_⟩ <;>
      simp only [create_customers, create_customer, Env.new_v4, List.length_cons,
        List.map_cons, List.range'_succ]
    · simpa [List.append_assoc] using ihp
    · simpa using ihm
    · rw [ihn]; exact Nat.add_right_comm env.nextUuid 1 rs.length
    · simpa using iht
    · simpa using ihc

/-! Claim theorems. -/

/-- C10: at process start, before any create operation, all three stores are
empty: listing projects, tasks and customers on a freshly constructed
application state returns the empty sequence. -/
theorem initial_stores_empty :
    list_projects AppState.new = [] ∧
    list_tasks AppState.new = [] ∧
    list_customers AppState.new = [] :=
  ⟨rfl, rfl, rfl⟩

/-- C4: for every creation request of any kind, every user-supplied field is
passed through unmodified into the returned entity, the id is newly drawn
from the fresh-id supply and created_at is read off the server clock (the
request carries no id or created_at field at all, so neither can coincide
with a caller-supplied value), the stored record is exactly the returned one,
and the handler replies 201 CREATED. -/
theorem create_assigns_fields (env : Env) (st : AppState) :
    (∀ p : CreateProjectRequest,
        (create_project p env st).1.2
            = ⟨env.nextUuid, p.name, p.status, p.budget, env.now⟩ ∧
        (create_project p env st).2.2.projects
            = st.projects ++ [(create_project p env st).1.2] ∧
        (create_project p env st).1.1 = CREATED) ∧
    (∀ p : CreateTaskRequest,
        (create_task p env st).1.2
            = ⟨env.nextUuid, p.title, p.completed, p.priority, env.now⟩ ∧
        (create_task p env st).2.2.tasks
            = st.tasks ++ [(create_task p env st).1.2] ∧
        (create_task p env st).1.1 = CREATED) ∧
    (∀ p : CreateCustomerRequest,
        (create_customer p env st).1.2
            = ⟨env.nextUuid, p.name, p.email, p.active, env.now⟩ ∧
        (create_customer p env st).2.2.customers
            = st.customers ++ [(create_customer p env st).1.2] ∧
        (create_customer p env st).1.1 = CREATED) :=
  ⟨fun _ => ⟨rfl, rfl, rfl⟩, fun _ => ⟨rfl, rfl, rfl⟩, fun _ => ⟨rfl, rfl, rfl⟩⟩

/-- C7: every operation on one entity kind leaves the other two stores
unchanged, a create changes its own store only by appending the one new
record, and the read-only handlers (list and get, embedded in the step
relation) change no store at all. -/
theorem cross_store_frame (env : Env) (st : AppState) :
    (∀ p : CreateProjectRequest,
        (create_project p env st).2.2.tasks = st.tasks ∧
        (create_project p env st).2.2.customers = st.customers ∧
        (create_project p env st).2.2.projects
            = st.projects ++ [(create_project p env st).1.2]) ∧
    (∀ p : CreateTaskRequest,
        (create_task p env st).2.2.projects = st.projects ∧
        (create_task p env st).2.2.customers = st.customers ∧
        (create_task p env st).2.2.tasks
            = st.tasks ++ [(create_task p env st).1.2]) ∧
    (∀ p : CreateCustomerRequest,
        (create_customer p env st).2.2.projects = st.projects ∧
        (create_customer p env st).2.2.tasks = st.tasks ∧
        (create_customer p env st).2.2.customers
            = st.customers ++ [(create_customer p env st).1.2]) ∧
    step Op.listProjects (env, st) = (env, st) ∧
    step Op.listTasks (env, st) = (env, st) ∧
    step Op.listCustomers (env, st) = (env, st) ∧
    (∀ id : Uuid, step (Op.getProject id) (env, st) = (env, st)) ∧
    (∀ id : Uuid, step (Op.getTask id) (env, st) = (env, st)) ∧
    (∀ id : Uuid, step (Op.getCustomer id) (env, st) = (env, st)) :=
  ⟨fun _ => ⟨rfl, rfl, rfl⟩, fun _ => ⟨rfl, rfl, rfl⟩, fun _ => ⟨rfl, rfl, rfl⟩,
    rfl, rfl, rfl, fun _ => rfl, fun _ => rfl, fun _ => rfl⟩

/-- C1: for every entity kind, creating an entity in a state whose stored ids
are fresh with respect to the id supply and then getting the returned
identifier yields exactly the entity returned at creation. -/
theorem create_get_roundtrip (env : Env) (st : AppState) (h : uuidFresh env st) :
    (∀ p : CreateProjectRequest,
        get_project (create_project p env st).1.2.id (create_project p env st).2.2
          = Except.ok (create_project p env st).1.2) ∧
    (∀ p : CreateTaskRequest,
        get_task (create_task p env st).1.2.id (create_task p env st).2.2
          = Except.ok (create_task p env st).1.2) ∧
    (∀ p : CreateCustomerRequest,
        get_customer (create_customer p env st).1.2.id (create_customer p env st).2.2
          = Except.ok (create_customer p env st).1.2) := by
  refine ⟨fun p => ?_, fun p => ?_, fun p => ?_⟩
  · show get_project env.nextUuid
        { st with projects := st.projects ++ [⟨env.nextUuid, p.name, p.status, p.budget, env.now⟩] }
      = Except.ok ⟨env.nextUuid, p.name, p.status, p.budget, env.now⟩
    unfold get_project
    rw [show ({ st with projects := st.projects ++ [⟨env.nextUuid, p.name, p.status, p.budget, env.now⟩] } :
        AppState).projects = st.projects ++ [⟨env.nextUuid, p.name, p.status, p.budget, env.now⟩] from rfl]
    rw [List.find?_append, find?_projects_fresh env st h.1]
    simp [List.find?]
  · show get_task env.nextUuid
        { st with tasks := st.tasks ++ [⟨env.nextUuid, p.title, p.completed, p.priority, env.now⟩] }
      = Except.ok ⟨env.nextUuid, p.title, p.completed, p.priority, env.now⟩
    unfold get_task
    rw [show ({ st with tasks := st.tasks ++ [⟨env.nextUuid, p.title, p.completed, p.priority, env.now⟩] } :
        AppState).tasks = st.tasks ++ [⟨env.nextUuid, p.title, p.completed, p.priority, env.now⟩] from rfl]
    rw [List.find?_append, find?_tasks_fresh env st h.2.1]
    simp [List.find?]
  · show get_customer env.nextUuid
        { st with customers := st.customers ++ [⟨env.nextUuid, p.name, p.email, p.active, env.now⟩] }
      = Except.ok ⟨env.nextUuid, p.name, p.email, p.active, env.now⟩
    unfold get_customer
    rw [show ({ st with customers := st.customers ++ [⟨env.nextUuid, p.name, p.email, p.active, env.now⟩] } :
        AppState).customers = st.customers ++ [⟨env.nextUuid, p.name, p.email, p.active, env.now⟩] from rfl]
    rw [List.find?_append, find?_customers_fresh env st h.2.2]
    simp [List.find?]

/-- C1 witness: a concrete creation in a non-empty state followed by a get of
the returned id, returning the created project. -/
theorem create_get_roundtrip_witness :
    uuidFresh ⟨5, 99⟩ ⟨[⟨0, "alpha", "new", 10, 1⟩], [], []⟩ ∧
    get_project
        (create_project ⟨"p", "open", 42⟩ ⟨5, 99⟩ ⟨[⟨0, "alpha", "new", 10, 1⟩], [], []⟩).1.2.id
        (create_project ⟨"p", "open", 42⟩ ⟨5, 99⟩ ⟨[⟨0, "alpha", "new", 10, 1⟩], [], []⟩).2.2
      = Except.ok (create_project ⟨"p", "open", 42⟩ ⟨5, 99⟩ ⟨[⟨0, "alpha", "new", 10, 1⟩], [], []⟩).1.2 :=
  ⟨by decide,
    (create_get_roundtrip ⟨5, 99⟩ ⟨[⟨0, "alpha", "new", 10, 1⟩], [], []⟩ (by decide)).1
      ⟨"p", "open", 42⟩⟩

/-- C5: for every entity kind, get-by-id returns 404 exactly when the id is
absent from the store, and whenever the id is present it returns a found
stored entity carrying that id. -/
theorem get_not_found_iff_absent (st : AppState) (id : Uuid) :
    ((get_project id st = Except.error NOT_FOUND ↔ ∀ r ∈ st.projects, r.id ≠ id) ∧
      ((∃ r ∈ st.projects, r.id = id) ↔
        ∃ r, get_project id st = Except.ok r ∧ r ∈ st.projects ∧ r.id = id)) ∧
    ((get_task id st = Except.error NOT_FOUND ↔ ∀ r ∈ st.tasks, r.id ≠ id) ∧
      ((∃ r ∈ st.tasks, r.id = id) ↔
        ∃ r, get_task id st = Except.ok r ∧ r ∈ st.tasks ∧ r.id = id)) ∧
    ((get_customer id st = Except.error NOT_FOUND ↔ ∀ r ∈ st.customers, r.id ≠ id) ∧
      ((∃ r ∈ st.customers, r.id = id) ↔
        ∃ r, get_customer id st = Except.ok r ∧ r ∈ st.customers ∧ r.id = id)) := by
  refine ⟨?_, ?_, ?_⟩
  · unfold get_project
    cases hf : st.projects.find? (fun i => i.id == id) with
    | none =>
      have hnone := List.find?_eq_none.1 hf
      refine ⟨⟨fun _ r hr => by simpa using hnone r hr, fun _ => rfl⟩, ?_, ?_⟩
      · rintro ⟨r, hr, hid⟩
        exact absurd hid (by simpa using hnone r hr)
      · rintro ⟨r, hok, -, -⟩
        exact absurd hok (by simp)
    | some r =>
      have hmem := List.mem_of_find?_eq_some hf
      have hid : r.id = id := by simpa using List.find?_some hf
      refine ⟨⟨fun hcontra => absurd hcontra (by simp), fun hall => absurd hid (hall r hmem)⟩,
        fun _ => ⟨r, rfl, hmem, hid⟩, fun _ => ⟨r, hmem, hid⟩⟩
  · unfold get_task
    cases hf : st.tasks.find? (fun i => i.id == id) with
    | none =>
      have hnone := List.find?_eq_none.1 hf
      refine ⟨⟨fun _ r hr => by simpa using hnone r hr, fun _ => rfl⟩, ?_, ?_⟩
      · rintro ⟨r, hr, hid⟩
        exact absurd hid (by simpa using hnone r hr)
      · rintro ⟨r, hok, -, -⟩
        exact absurd hok (by simp)
    | some r =>
      have hmem := List.mem_of_find?_eq_some hf
      have hid : r.id = id := by simpa using List.find?_some hf
      refine ⟨⟨fun hcontra => absurd hcontra (by simp), fun hall => absurd hid (hall r hmem)⟩,
        fun _ => ⟨r, rfl, hmem, hid⟩, fun _ => ⟨r, hmem, hid⟩⟩
  · unfold get_customer
    cases hf : st.customers.find? (fun i => i.id == id) with
    | none =>
      have hnone := List.find?_eq_none.1 hf
      refine ⟨⟨fun _ r hr => by simpa using hnone r hr, fun _ => rfl⟩, ?_, ?_⟩
      · rintro ⟨r, hr, hid⟩
        exact absurd hid (by simpa using hnone r hr)
      · rintro ⟨r, hok, -, -⟩
        exact absurd hok (by simp)
    | some r =>
      have hmem := List.mem_of_find?_eq_some hf
      have hid : r.id = id := by simpa using List.find?_some hf
      refine ⟨⟨fun hcontra => absurd hcontra (by simp), fun hall => absurd hid (hall r hmem)⟩,
        fun _ => ⟨r, rfl, hmem, hid⟩, fun _ => ⟨r, hmem, hid⟩⟩

/-- C5 witness: getting a never-issued id on a concrete non-empty store
returns 404, via the characterization applied at that store. -/
theorem get_not_found_iff_absent_witness :
    get_project 3 ⟨[⟨1, "alpha", "new", 10, 1⟩], [], []⟩ = Except.error NOT_FOUND :=
  (get_not_found_iff_absent ⟨[⟨1, "alpha", "new", 10, 1⟩], [], []⟩ 3).1.1.mpr (by decide)

/-- C6: for every entity kind, get-by-id returns the first record in
insertion order whose identifier equals the given id; in particular with
duplicate ids the earliest-inserted record is the one returned (see the
witness). -/
theorem get_first_match (st : AppState) (id : Uuid) :
    (∀ l₁ (r : Project) l₂, st.projects = l₁ ++ r :: l₂ → r.id = id →
        (∀ x ∈ l₁, x.id ≠ id) → get_project id st = Except.ok r) ∧
    (∀ l₁ (r : Task) l₂, st.tasks = l₁ ++ r :: l₂ → r.id = id →
        (∀ x ∈ l₁, x.id ≠ id) → get_task id st = Except.ok r) ∧
    (∀ l₁ (r : Customer) l₂, st.customers = l₁ ++ r :: l₂ → r.id = id →
        (∀ x ∈ l₁, x.id ≠ id) → get_customer id st = Except.ok r) := by
  refine ⟨fun l₁ r l₂ hsplit hr hfirst => ?_, fun l₁ r l₂ hsplit hr hfirst => ?_,
    fun l₁ r l₂ hsplit hr hfirst => ?_⟩
  · unfold get_project
    rw [hsplit, List.find?_append]
    have h₁ : l₁.find? (fun i => i.id == id) = none := by
      rw [List.find?_eq_none]
      intro x hx
      simpa using hfirst x hx
    rw [h₁]
    simp [List.find?, hr]
  · unfold get_task
    rw [hsplit, List.find?_append]
    have h₁ : l₁.find? (fun i => i.id == id) = none := by
      rw [List.find?_eq_none]
      intro x hx
      simpa using hfirst x hx
    rw [h₁]
    simp [List.find?, hr]
  · unfold get_customer
    rw [hsplit, List.find?_append]
    have h₁ : l₁.find? (fun i => i.id == id) = none := by
      rw [List.find?_eq_none]
      intro x hx
      simpa using hfirst x hx
    rw [h₁]
    simp [List.find?, hr]

/-- C6 witness: on a store holding two records that share id 7, get returns
the earliest-inserted one. -/
theorem get_first_match_witness :
    get_project 7 ⟨[⟨7, "first", "a", 1, 0⟩, ⟨7, "second", "b", 2, 0⟩], [], []⟩
      = Except.ok ⟨7, "first", "a", 1, 0⟩ :=
  (get_first_match ⟨[⟨7, "first", "a", 1, 0⟩, ⟨7, "second", "b", 2, 0⟩], [], []⟩ 7).1
    [] ⟨7, "first", "a", 1, 0⟩ [⟨7, "second", "b", 2, 0⟩] rfl rfl (by decide)

/-- C2: for every entity kind, after N creations on an initially empty store
the list operation returns exactly the N created entities, in creation
order (the i-th listed entity carries the i-th freshly drawn id). -/
theorem list_returns_creations_in_order (env : Env) :
    (∀ reqs : List CreateProjectRequest,
        list_projects (create_projects reqs env AppState.new).2.2
            = (create_projects reqs env AppState.new).1 ∧
        (create_projects reqs env AppState.new).1.length = reqs.length ∧
        List.map Project.id (create_projects reqs env AppState.new).1
            = List.range' env.nextUuid reqs.length) ∧
    (∀ reqs : List CreateTaskRequest,
        list_tasks (create_tasks reqs env AppState.new).2.2
            = (create_tasks reqs env AppState.new).1 ∧
        (create_tasks reqs env AppState.new).1.length = reqs.length ∧
        List.map Task.id (create_tasks reqs env AppState.new).1
            = List.range' env.nextUuid reqs.length) ∧
    (∀ reqs : List CreateCustomerRequest,
        list_customers (create_customers reqs env AppState.new).2.2
            = (create_customers reqs env AppState.new).1 ∧
        (create_customers reqs env AppState.new).1.length = reqs.length ∧
        List.map Customer.id (create_customers reqs env AppState.new).1
            = List.range' env.nextUuid reqs.length) := by
  refine ⟨fun reqs => ?_, fun reqs => ?_, fun reqs => ?_⟩
  · obtain ⟨hp, hm, -, -, -⟩ := create_projects_spec reqs env AppState.new
    refine ⟨?_, ?_, hm⟩
    · simpa [list_projects, AppState.new] using hp
    · have hl := congrArg List.length hm
      simpa using hl
  · obtain ⟨hp, hm, -, -, -⟩ := create_tasks_spec reqs env AppState.new
    refine ⟨?_, ?_, hm⟩
    · simpa [list_tasks, AppState.new] using hp
    · have hl := congrArg List.length hm
      simpa using hl
  · obtain ⟨hp, hm, -, -, -⟩ := create_customers_spec reqs env AppState.new
    refine ⟨?_, ?_, hm⟩
    · simpa [list_customers, AppState.new] using hp
    · have hl := congrArg List.length hm
      simpa using hl

/-- C3: in every state reachable by a run of requests from process start,
the next created entity of each kind receives an identifier distinct from
every identifier already stored for that kind. -/
theorem created_id_unique (ops : List Op) (env₀ : Env) :
    (∀ p : CreateProjectRequest,
        (create_project p (run ops (env₀, AppState.new)).1
            (run ops (env₀, AppState.new)).2).1.2.id
          ∉ List.map Project.id (run ops (env₀, AppState.new)).2.projects) ∧
    (∀ p : CreateTaskRequest,
        (create_task p (run ops (env₀, AppState.new)).1
            (run ops (env₀, AppState.new)).2).1.2.id
          ∉ List.map Task.id (run ops (env₀, AppState.new)).2.tasks) ∧
    (∀ p : CreateCustomerRequest,
        (create_customer p (run ops (env₀, AppState.new)).1
            (run ops (env₀, AppState.new)).2).1.2.id
          ∉ List.map Customer.id (run ops (env₀, AppState.new)).2.customers) := by
  have hf := uuidFresh_run ops (env₀, AppState.new) (uuidFresh_new env₀)
  refine ⟨fun p hmem => ?_, fun p hmem => ?_, fun p hmem => ?_⟩
  · obtain ⟨x, hx, hid⟩ := List.mem_map.1 hmem
    exact absurd hid (Nat.ne_of_lt (hf.1 x hx))
  · obtain ⟨x, hx, hid⟩ := List.mem_map.1 hmem
    exact absurd hid (Nat.ne_of_lt (hf.2.1 x hx))
  · obtain ⟨x, hx, hid⟩ := List.mem_map.1 hmem
    exact absurd hid (Nat.ne_of_lt (hf.2.2 x hx))

/-- C3 witness: after one concrete creation from process start, the next
created project's id is not among the stored ids. -/
theorem created_id_unique_witness :
    (create_project ⟨"q", "open", 7⟩
        (run [Op.createProject ⟨"a", "new", 5⟩] (⟨0, 0⟩, AppState.new)).1
        (run [Op.createProject ⟨"a", "new", 5⟩] (⟨0, 0⟩, AppState.new)).2).1.2.id
      ∉ List.map Project.id
          (run [Op.createProject ⟨"a", "new", 5⟩] (⟨0, 0⟩, AppState.new)).2.projects :=
  (created_id_unique [Op.createProject ⟨"a", "new", 5⟩] ⟨0, 0⟩).1 ⟨"q", "open", 7⟩

theorem step_preserves_lists (op : Op) (s : Env × AppState) :
    List.IsPrefix s.2.projects (step op s).2.projects ∧
    List.IsPrefix s.2.tasks (step op s).2.tasks ∧
    List.IsPrefix s.2.customers (step op s).2.customers := by
  cases op with
  | createProject p => exact ⟨List.prefix_append _ _, List.prefix_rfl, List.prefix_rfl⟩
  | createTask p => exact ⟨List.prefix_rfl, List.prefix_append _ _, List.prefix_rfl⟩
  | createCustomer p => exact ⟨List.prefix_rfl, List.prefix_rfl, List.prefix_append _ _⟩
  | listProjects => exact ⟨List.prefix_rfl, List.prefix_rfl, List.prefix_rfl⟩
  | listTasks => exact ⟨List.prefix_rfl, List.prefix_rfl, List.prefix_rfl⟩
  | listCustomers => exact ⟨List.prefix_rfl, List.prefix_rfl, List.prefix_rfl⟩
  | getProject id => exact ⟨List.prefix_rfl, List.prefix_rfl, List.prefix_rfl⟩
  | getTask id => exact ⟨List.prefix_rfl, List.prefix_rfl, List.prefix_rfl⟩
  | getCustomer id => exact ⟨List.prefix_rfl, List.prefix_rfl, List.prefix_rfl⟩

/-- C8: no sequence of create, list and get requests ever mutates or removes
a stored record: each store before a run is a prefix of that store after
the run, so every previously stored record survives at its position with
identical field values. -/
theorem stores_append_only (ops : List Op) (env : Env) (st : AppState) :
    List.IsPrefix st.projects (run ops (env, st)).2.projects ∧
    List.IsPrefix st.tasks (run ops (env, st)).2.tasks ∧
    List.IsPrefix st.customers (run ops (env, st)).2.customers := by
  induction ops generalizing env st with
  | nil => exact ⟨List.prefix_rfl, List.prefix_rfl, List.prefix_rfl⟩
  | cons op ops ih =>
    have h1 := step_preserves_lists op (env, st)
    have h2 := ih (step op (env, st)).1 (step op (env, st)).2
    exact ⟨h1.1.trans h2.1, h1.2.1.trans h2.2.1, h1.2.2.trans h2.2.2⟩

/-- C9: the store lock serializes concurrent creations, so a concurrent
batch of K creations of one kind is some sequential order of the K
requests; for every such order, starting from the empty store, the store
afterwards holds exactly K entities with pairwise distinct identifiers. -/
theorem concurrent_creates_distinct (env₀ : Env) :
    (∀ reqs : List CreateProjectRequest,
        (create_projects reqs env₀ AppState.new).2.2.projects.length = reqs.length ∧
        (List.map Project.id (create_projects reqs env₀ AppState.new).2.2.projects).Nodup) ∧
    (∀ reqs : List CreateTaskRequest,
        (create_tasks reqs env₀ AppState.new).2.2.tasks.length = reqs.length ∧
        (List.map Task.id (create_tasks reqs env₀ AppState.new).2.2.tasks).Nodup) ∧
    (∀ reqs : List CreateCustomerRequest,
        (create_customers reqs env₀ AppState.new).2.2.customers.length = reqs.length ∧
        (List.map Customer.id (create_customers reqs env₀ AppState.new).2.2.customers).Nodup) := by
  refine ⟨fun reqs => ?_, fun reqs => ?_, fun reqs => ?_⟩
  · obtain ⟨hp, hm, -, -, -⟩ := create_projects_spec reqs env₀ AppState.new
    have hlist : (create_projects reqs env₀ AppState.new).2.2.projects
        = (create_projects reqs env₀ AppState.new).1 := by
      simpa [AppState.new] using hp
    constructor
    · rw [hlist]
      have hl := congrArg List.length hm
      simpa using hl
    · rw [hlist, hm]
      exact List.nodup_range' _ _
  · obtain ⟨hp, hm, -, -, -⟩ := create_tasks_spec reqs env₀ AppState.new
    have hlist : (create_tasks reqs env₀ AppState.new).2.2.tasks
        = (create_tasks reqs env₀ AppState.new).1 := by
      simpa [AppState.new] using hp
    constructor
    · rw [hlist]
      have hl := congrArg List.length hm
      simpa using hl
    · rw [hlist, hm]
      exact List.nodup_range' _ _
  · obtain ⟨hp, hm, -, -, -⟩ := create_customers_spec reqs env₀ AppState.new
    have hlist : (create_customers reqs env₀ AppState.new).2.2.customers
        = (create_customers reqs env₀ AppState.new).1 := by
      simpa [AppState.new] using hp
    constructor
    · rw [hlist]
      have hl := congrArg List.length hm
      simpa using hl
    · rw [hlist, hm]
      exact List.nodup_range' _ _

end DemoCustomerApp
